import Mathlib

/-
Verification of the per-role API privilege reconciliation logic of the
table-editor "Data API Access" feature: the ApiAccessToggle component
(effective-privilege derivation, saved-privilege snapshot, master toggle,
per-role edits, partial-privilege indicator), the table-api-access query
mapping, the table-api-access privileges mutation, and the realtime
experiment hook.  Each definition is a shallow embedding of the
corresponding TypeScript source; theorems settle the specified properties.
-/

namespace ApiAccess

/-- Role: fixed closed set, from API_ACCESS_ROLES in the query module. -/
inductive ApiAccessRole
  | anon
  | authenticated
deriving DecidableEq

/-- Privilege kind: fixed closed set, from API_PRIVILEGE_TYPES. -/
inductive ApiPrivilegeType
  | select
  | insert
  | update
  | delete
deriving DecidableEq, Fintype

/-- Source constant API_ACCESS_ROLES = ['anon', 'authenticated']. -/
def API_ACCESS_ROLES : List ApiAccessRole := [.anon, .authenticated]

/-- Source constant API_PRIVILEGE_TYPES = ['SELECT', 'INSERT', 'UPDATE', 'DELETE']. -/
def API_PRIVILEGE_TYPES : List ApiPrivilegeType := [.select, .insert, .update, .delete]

/-- ApiPrivilegesPerRole: an entry for every role (never partial). -/
structure ApiPrivilegesPerRole where
  anon : List ApiPrivilegeType
  authenticated : List ApiPrivilegeType
deriving DecidableEq

/-- Look up one role's privilege list in an ApiPrivilegesPerRole record. -/
def getRole (e : ApiPrivilegesPerRole) : ApiAccessRole → List ApiPrivilegeType
  | .anon => e.anon
  | .authenticated => e.authenticated

/-- Source createDefaultRolePrivileges: every role gets all privilege types. -/
def createDefaultRolePrivileges : ApiPrivilegesPerRole :=
  { anon := API_PRIVILEGE_TYPES, authenticated := API_PRIVILEGE_TYPES }

/-- Source emptyPrivileges: every role maps to the empty list. -/
def emptyPrivileges : ApiPrivilegesPerRole := { anon := [], authenticated := [] }

/--
State of one ApiAccessToggle instance.  pendingEdit models
tableFields.apiPrivileges (the locally staged edit held by the embedding
form, written back through the onChange callback), remoteValue models
apiAccessData?.privileges from the query, savedPrivileges models the
savedPrivileges useState cell.
-/
structure ReconcilerState where
  isSchemaExposed : Bool
  isNewRecord : Bool
  isDuplicating : Bool
  pendingEdit : Option ApiPrivilegesPerRole
  remoteValue : Option ApiPrivilegesPerRole
  savedPrivileges : Option ApiPrivilegesPerRole
deriving DecidableEq

/-- Source derivedPrivileges = tableFields.apiPrivileges ?? apiAccessData?.privileges ?? defaultPrivileges. -/
def derivedPrivileges (s : ReconcilerState) : ApiPrivilegesPerRole :=
  s.pendingEdit.getD (s.remoteValue.getD createDefaultRolePrivileges)

/-- Source effectivePrivileges: empty for all roles when the schema is not
exposed and the record is new or being duplicated, else derivedPrivileges. -/
def effectivePrivileges (s : ReconcilerState) : ApiPrivilegesPerRole :=
  if !s.isSchemaExposed && (s.isNewRecord || s.isDuplicating) then emptyPrivileges
  else derivedPrivileges s

/-- Object.values(e).some(privs => privs.length > 0). -/
def hasAnyPrivilege (e : ApiPrivilegesPerRole) : Bool :=
  [e.anon, e.authenticated].any fun privs => privs.length > 0

/-- Source isSwitchOn: some role has a non-empty privilege list. -/
def isSwitchOn (s : ReconcilerState) : Bool :=
  hasAnyPrivilege (effectivePrivileges s)

/-- The useEffect that keeps savedPrivileges in sync with the current
non-empty selections: if isSwitchOn then setSavedPrivileges(effectivePrivileges). -/
def syncSavedPrivileges (s : ReconcilerState) : ReconcilerState :=
  if isSwitchOn s then { s with savedPrivileges := some (effectivePrivileges s) } else s

/--
Source handleMasterToggle.  Returns the successor state together with the
value emitted through onChange (none when nothing is emitted).  The emitted
value becomes the staged pendingEdit (tableFields.apiPrivileges), which is
how the embedding form stores the onChange payload.
-/
def handleMasterToggle (checked : Bool) (s : ReconcilerState) :
    ReconcilerState × Option ApiPrivilegesPerRole :=
  if !s.isSchemaExposed then (s, none)
  else if !checked then
    ({ s with savedPrivileges := some (effectivePrivileges s),
              pendingEdit := some emptyPrivileges },
      some emptyPrivileges)
  else
    let restored := s.savedPrivileges.getD createDefaultRolePrivileges
    ({ s with pendingEdit := some restored }, some restored)

/-- The object spread in handlePrivilegesChange: replace one role's entry. -/
def setRolePrivileges (e : ApiPrivilegesPerRole) (role : ApiAccessRole)
    (values : List ApiPrivilegeType) : ApiPrivilegesPerRole :=
  match role with
  | .anon => { e with anon := values }
  | .authenticated => { e with authenticated := values }

/-- Source handlePrivilegesChange(role)(values), with the emitted onChange
payload returned alongside the successor state, as for handleMasterToggle. -/
def handlePrivilegesChange (role : ApiAccessRole) (values : List ApiPrivilegeType)
    (s : ReconcilerState) : ReconcilerState × Option ApiPrivilegesPerRole :=
  if !s.isSchemaExposed then (s, none)
  else
    let updatedPrivileges := setRolePrivileges (effectivePrivileges s) role values
    ({ s with pendingEdit := some updatedPrivileges }, some updatedPrivileges)

/-- Source totalAvailablePrivileges = API_ACCESS_ROLES.length * API_PRIVILEGE_TYPES.length. -/
def totalAvailablePrivileges : Nat := API_ACCESS_ROLES.length * API_PRIVILEGE_TYPES.length

/-- Source totalSelectedPrivileges: reduce over Object.values, summing lengths. -/
def totalSelectedPrivileges (e : ApiPrivilegesPerRole) : Nat :=
  [e.anon, e.authenticated].foldl (fun acc privs => acc + privs.length) 0

/-- Source hasPartialPrivileges. -/
def hasPartialPrivileges (e : ApiPrivilegesPerRole) : Bool :=
  totalSelectedPrivileges e > 0 && totalSelectedPrivileges e < totalAvailablePrivileges

/-- Spec-side value defaultAllPrivileges(): every role maps to all privilege kinds. -/
def defaultAllPrivileges : ApiPrivilegesPerRole :=
  { anon := API_PRIVILEGE_TYPES, authenticated := API_PRIVILEGE_TYPES }

/--
Spec-side reconciler output, written from the spec text: all roles map to
the empty sequence when the schema is not exposed and the entity is new or
being duplicated; otherwise the pending edit if present, else the remote
value if present, else defaultAllPrivileges.  Compared against the
source-derived effectivePrivileges in the refinement theorem for C1.
-/
def reconcilerSpecEffective (pendingEdit remoteValue : Option ApiPrivilegesPerRole)
    (isSchemaExposed isNewEntity isDuplicating : Bool) : ApiPrivilegesPerRole :=
  if !isSchemaExposed && (isNewEntity || isDuplicating) then { anon := [], authenticated := [] }
  else
    match pendingEdit with
    | some e => e
    | none =>
      match remoteValue with
      | some r => r
      | none => defaultAllPrivileges

/-- Kind of a generated SQL statement set (pgMeta.tablePrivileges.revoke / .grant). -/
inductive StmtKind
  | revoke
  | grant
deriving DecidableEq

/-- One grant object passed to the external SQL generator:
{ grantee: role, privilegeType, relationId }. -/
structure PrivilegeGrant where
  grantee : ApiAccessRole
  privilegeType : ApiPrivilegeType
  relationId : Nat
deriving DecidableEq

/-- One generated statement set: the action together with its grant objects. -/
structure SqlStatement where
  kind : StmtKind
  grants : List PrivilegeGrant
deriving DecidableEq

/-- Source privilegesToRevoke = API_PRIVILEGE_TYPES.filter(p => !rolePrivileges.includes(p)). -/
def privilegesToRevoke (rolePrivileges : List ApiPrivilegeType) : List ApiPrivilegeType :=
  API_PRIVILEGE_TYPES.filter fun p => !rolePrivileges.contains p

/-- Loop body of updateTableApiAccessPrivileges for one role: push a revoke
statement set for the non-desired privileges when there are any, then a grant
statement set for the desired privileges when there are any. -/
def roleStatements (relationId : Nat) (role : ApiAccessRole)
    (rolePrivileges : List ApiPrivilegeType) : List SqlStatement :=
  (if (privilegesToRevoke rolePrivileges).length > 0 then
    [⟨.revoke, (privilegesToRevoke rolePrivileges).map fun t => ⟨role, t, relationId⟩⟩]
  else []) ++
  (if rolePrivileges.length > 0 then
    [⟨.grant, rolePrivileges.map fun t => ⟨role, t, relationId⟩⟩]
  else [])

/-- Source updateTableApiAccessPrivileges, modelled as the list of SQL
statement sets it assembles (the for-loop over API_ACCESS_ROLES). -/
def updateTableApiAccessPrivileges (relationId : Nat)
    (privileges : ApiPrivilegesPerRole) : List SqlStatement :=
  API_ACCESS_ROLES.foldr
    (fun role acc => roleStatements relationId role (getRole privileges role) ++ acc) []

end ApiAccess

namespace TableApiAccessQuery

/-- One remote grant row as consumed by mapPrivilegesToApiAccess: the grantee
and the privilege type are untrusted strings from the server. -/
structure TablePrivilege where
  grantee : String
  privilege_type : String
deriving DecidableEq

/-- One relation entry of the table-privileges payload, with the fields the
mapping reads. -/
structure TablePrivilegesRow where
  relation_id : Nat
  schema : String
  name : String
  privileges : List TablePrivilege
deriving DecidableEq

/-- String-level counterpart of API_PRIVILEGE_TYPES as compared against the
remote payload. -/
def API_PRIVILEGE_TYPES : List String := ["SELECT", "INSERT", "UPDATE", "DELETE"]

/-- Per-role output of the query mapping; kept string-level because the remote
payload is untyped. -/
structure ApiPrivilegesPerRole where
  anon : List String
  authenticated : List String
deriving DecidableEq

/-- Query result shape { hasApiAccess, privileges }. -/
structure TableApiAccessData where
  hasApiAccess : Bool
  privileges : ApiPrivilegesPerRole
deriving DecidableEq

/-- JavaScript truthiness of the optional numeric relationId (0 and undefined
are falsy). -/
def jsTruthyNat : Option Nat → Bool
  | some n => n != 0
  | none => false

/-- Strict equality of an entry field against a possibly-undefined string. -/
def optStrEq (a : String) : Option String → Bool
  | some b => a == b
  | none => false

/-- The find predicate: relationId ? entry.relation_id === relationId
: entry.schema === schema && entry.name === tableName. -/
def matchesTarget (relationId : Option Nat) (schema tableName : Option String)
    (entry : TablePrivilegesRow) : Bool :=
  if jsTruthyNat relationId then entry.relation_id == relationId.getD 0
  else optStrEq entry.schema schema && optStrEq entry.name tableName

/-- Source target?.privileges ?? [] with target = (data ?? []).find(...). -/
def targetPrivileges (data : Option (List TablePrivilegesRow)) (relationId : Option Nat)
    (schema tableName : Option String) : List TablePrivilege :=
  match (data.getD []).find? (matchesTarget relationId schema tableName) with
  | some target => target.privileges
  | none => []

/-- Per-role filter of the loop body: keep grants to the role, project the
privilege type, keep only the fixed privilege-type strings. -/
def rolePrivileges (allPrivileges : List TablePrivilege) (role : String) : List String :=
  ((allPrivileges.filter fun p => p.grantee == role).map fun p => p.privilege_type).filter
    fun p => API_PRIVILEGE_TYPES.contains p

/-- Source mapPrivilegesToApiAccess. -/
def mapPrivilegesToApiAccess (data : Option (List TablePrivilegesRow))
    (relationId : Option Nat) (schema tableName : Option String) : TableApiAccessData :=
  let allPrivileges := targetPrivileges data relationId schema tableName
  let privilegesPerRole : ApiPrivilegesPerRole :=
    { anon := rolePrivileges allPrivileges "anon"
      authenticated := rolePrivileges allPrivileges "authenticated" }
  { hasApiAccess :=
      privilegesPerRole.anon.length > 0 || privilegesPerRole.authenticated.length > 0
    privileges := privilegesPerRole }

end TableApiAccessQuery

namespace RealtimeExperiment

/-- RealtimeButtonVariant enum; every value is a non-empty (truthy) string. -/
inductive RealtimeButtonVariant
  | control
  | hideButton
  | triggers
deriving DecidableEq

/-- Source useRealtimeExperiment, reduced to its returned activeVariant.
IS_PLATFORM is passed as a parameter; the flag is the usePHFlag result,
none when the flag does not resolve. -/
def useRealtimeExperiment (isPlatform isTable : Bool)
    (realtimeButtonVariant : Option RealtimeButtonVariant) : Option RealtimeButtonVariant :=
  match realtimeButtonVariant with
  | none => none
  | some v =>
    if isPlatform && isTable && v != RealtimeButtonVariant.control then some v else none

end RealtimeExperiment

namespace ApiAccess

/-- An ApiPrivilegesPerRole with some privilege granted is not the all-empty one. -/
theorem ne_empty_of_hasAnyPrivilege {e : ApiPrivilegesPerRole}
    (h : hasAnyPrivilege e = true) : e ≠ emptyPrivileges := by
  intro he
  rw [he] at h
  exact absurd h (by decide)

/--
Claim C1: for all inputs, the effective privilege set equals all roles mapped
to the empty sequence when the schema is not exposed and the entity is new or
being duplicated, and otherwise the pending edit if present, else the remote
value if present, else the default-all-privileges value; in particular with
the schema not exposed and a new entity, every role maps to the empty list.
-/
theorem effectivePrivileges_matches_spec (s : ReconcilerState) :
    effectivePrivileges s =
      reconcilerSpecEffective s.pendingEdit s.remoteValue s.isSchemaExposed
        s.isNewRecord s.isDuplicating
    ∧ (s.isSchemaExposed = false → s.isNewRecord = true →
        ∀ r, getRole (effectivePrivileges s) r = []) := by
  obtain ⟨ex, nr, dup, pe, rv, sp⟩ := s
  constructor
  · simp only [effectivePrivileges, reconcilerSpecEffective, derivedPrivileges]
    cases pe <;> cases rv <;>
      simp [createDefaultRolePrivileges, defaultAllPrivileges, emptyPrivileges]
  · intro hex hnr r
    simp only at hex hnr
    subst hex; subst hnr
    cases r <;> simp [effectivePrivileges, getRole, emptyPrivileges]

/-- Instance of the C1 theorem at a concrete unexposed new-record state. -/
theorem effectivePrivileges_matches_spec_witness :
    getRole (effectivePrivileges ⟨false, true, false, none, some ⟨[.select], []⟩, none⟩) .anon = []
    ∧ getRole (effectivePrivileges ⟨false, true, false, none, some ⟨[.select], []⟩, none⟩)
        .authenticated = [] :=
  ⟨(effectivePrivileges_matches_spec ⟨false, true, false, none, some ⟨[.select], []⟩, none⟩).2
      rfl rfl .anon,
   (effectivePrivileges_matches_spec ⟨false, true, false, none, some ⟨[.select], []⟩, none⟩).2
      rfl rfl .authenticated⟩

/--
Claim C2: from any state with the schema exposed, toggling the master switch
off and then on, with only the savedPrivileges sync effect running in between
and no external update, emits a pending edit equal to the effective privilege
set that held before the first toggle.
-/
theorem toggleOffOn_restores_effective (s : ReconcilerState)
    (h : s.isSchemaExposed = true) :
    (handleMasterToggle true (syncSavedPrivileges (handleMasterToggle false s).1)).2 =
      some (effectivePrivileges s) := by
  simp [handleMasterToggle, syncSavedPrivileges, isSwitchOn, effectivePrivileges,
    derivedPrivileges, hasAnyPrivilege, emptyPrivileges, h]

/-- Instance of the C2 theorem at the spec example state: remote value grants
select to anon and nothing to authenticated. -/
theorem toggleOffOn_restores_effective_witness :
    (handleMasterToggle true (syncSavedPrivileges (handleMasterToggle false
        (⟨true, false, false, none, some ⟨[.select], []⟩, none⟩ : ReconcilerState)).1)).2 =
      some (effectivePrivileges ⟨true, false, false, none, some ⟨[.select], []⟩, none⟩) :=
  toggleOffOn_restores_effective ⟨true, false, false, none, some ⟨[.select], []⟩, none⟩ rfl

/--
Claim C6: with the schema exposed, toggling off snapshots the current
effective set into savedPrivileges and emits the all-empty pending edit
(which becomes the staged edit), toggling on emits the saved snapshot if
present and otherwise the default-all-privileges value without touching the
snapshot; with the schema not exposed, the toggle emits nothing and leaves
the state unchanged.
-/
theorem handleMasterToggle_semantics (s : ReconcilerState) (checked : Bool) :
    (s.isSchemaExposed = false → handleMasterToggle checked s = (s, none))
    ∧ (s.isSchemaExposed = true →
        (handleMasterToggle false s).1.savedPrivileges = some (effectivePrivileges s)
        ∧ (handleMasterToggle false s).2 = some emptyPrivileges
        ∧ (handleMasterToggle false s).1.pendingEdit = some emptyPrivileges
        ∧ (handleMasterToggle true s).2 =
            some (s.savedPrivileges.getD createDefaultRolePrivileges)
        ∧ (handleMasterToggle true s).1.pendingEdit =
            some (s.savedPrivileges.getD createDefaultRolePrivileges)
        ∧ (handleMasterToggle true s).1.savedPrivileges = s.savedPrivileges) := by
  constructor
  · intro h
    simp [handleMasterToggle, h]
  · intro h
    simp [handleMasterToggle, h]

/-- Instance of the C6 theorem: the exposed branch at a concrete state and the
unexposed no-op branch at another. -/
theorem handleMasterToggle_semantics_witness :
    (handleMasterToggle false
        (⟨true, false, false, none, some ⟨[.select], []⟩, none⟩ : ReconcilerState)).2 =
      some emptyPrivileges
    ∧ handleMasterToggle false
        (⟨false, false, false, none, some ⟨[.select], []⟩, none⟩ : ReconcilerState) =
      (⟨false, false, false, none, some ⟨[.select], []⟩, none⟩, none) :=
  ⟨((handleMasterToggle_semantics
      ⟨true, false, false, none, some ⟨[.select], []⟩, none⟩ false).2 rfl).2.1,
   (handleMasterToggle_semantics
      ⟨false, false, false, none, some ⟨[.select], []⟩, none⟩ false).1 rfl⟩

/--
Claim C7: with the schema exposed, setRolePrivileges for a role emits a
pending edit equal to the current effective set with that role replaced by
the given list and every other role unchanged; with the schema not exposed it
emits nothing and changes no state.
-/
theorem handlePrivilegesChange_frame (s : ReconcilerState) (role : ApiAccessRole)
    (values : List ApiPrivilegeType) :
    (s.isSchemaExposed = false → handlePrivilegesChange role values s = (s, none))
    ∧ (s.isSchemaExposed = true →
        (handlePrivilegesChange role values s).2 =
          some (setRolePrivileges (effectivePrivileges s) role values)
        ∧ (handlePrivilegesChange role values s).1.pendingEdit =
          some (setRolePrivileges (effectivePrivileges s) role values)
        ∧ getRole (setRolePrivileges (effectivePrivileges s) role values) role = values
        ∧ ∀ r, r ≠ role →
            getRole (setRolePrivileges (effectivePrivileges s) role values) r =
              getRole (effectivePrivileges s) r) := by
  constructor
  · intro h
    simp [handlePrivilegesChange, h]
  · intro h
    refine ⟨by simp [handlePrivilegesChange, h], by simp [handlePrivilegesChange, h], ?_, ?_⟩
    · cases role <;> simp [setRolePrivileges, getRole]
    · intro r hr
      cases role <;> cases r <;> simp_all [setRolePrivileges, getRole]

/-- Instance of the C7 theorem: replacing the anon entry leaves the
authenticated entry unchanged at a concrete state. -/
theorem handlePrivilegesChange_frame_witness :
    getRole (setRolePrivileges (effectivePrivileges
        (⟨true, false, false, none, some ⟨[.select], [.delete]⟩, none⟩ : ReconcilerState))
        .anon [.insert]) .authenticated =
      getRole (effectivePrivileges
        (⟨true, false, false, none, some ⟨[.select], [.delete]⟩, none⟩ : ReconcilerState))
        .authenticated :=
  ((handlePrivilegesChange_frame
      ⟨true, false, false, none, some ⟨[.select], [.delete]⟩, none⟩ .anon [.insert]).2
    rfl).2.2.2 .authenticated (by decide)

/--
Claim C3 as stated is false: handleMasterToggle(false) snapshots the current
effective set unconditionally, so invoking it at a state whose effective set
is all-empty (here: schema exposed, staged pending edit all-empty) overwrites
savedPrivileges with the all-empty value.
-/
theorem masterToggleOff_saves_empty_cex :
    isSwitchOn (⟨true, false, false, some emptyPrivileges, none,
        some ⟨[.select], []⟩⟩ : ReconcilerState) = false
    ∧ (handleMasterToggle false (⟨true, false, false, some emptyPrivileges, none,
        some ⟨[.select], []⟩⟩ : ReconcilerState)).1.savedPrivileges =
      some emptyPrivileges := by decide

/--
Claim C3 amended: the sync effect overwrites savedPrivileges only when the
effective set is non-empty, and the per-role edit and the toggle-on operation
never change it; the toggle-off operation snapshots the effective set
unconditionally, so provided it is invoked only while the switch is on (as
the disabled/checked wiring of the UI switch ensures), every overwrite stores
a non-empty value.
-/
theorem savedPrivileges_update_rules (s : ReconcilerState) (role : ApiAccessRole)
    (values : List ApiPrivilegeType) :
    ((syncSavedPrivileges s).savedPrivileges = s.savedPrivileges
      ∨ ((syncSavedPrivileges s).savedPrivileges = some (effectivePrivileges s)
          ∧ effectivePrivileges s ≠ emptyPrivileges))
    ∧ (handlePrivilegesChange role values s).1.savedPrivileges = s.savedPrivileges
    ∧ (handleMasterToggle true s).1.savedPrivileges = s.savedPrivileges
    ∧ (isSwitchOn s = true →
        (handleMasterToggle false s).1.savedPrivileges = s.savedPrivileges
        ∨ ((handleMasterToggle false s).1.savedPrivileges = some (effectivePrivileges s)
            ∧ effectivePrivileges s ≠ emptyPrivileges)) := by
  refine ⟨?_, ?_, ?_, ?_⟩
  · by_cases hsw : isSwitchOn s = true
    · exact Or.inr ⟨by simp [syncSavedPrivileges, hsw],
        ne_empty_of_hasAnyPrivilege hsw⟩
    · simp [syncSavedPrivileges, hsw]
  · by_cases hex : s.isSchemaExposed <;> simp [handlePrivilegesChange, hex]
  · by_cases hex : s.isSchemaExposed <;> simp [handleMasterToggle, hex]
  · intro hsw
    by_cases hex : s.isSchemaExposed
    · exact Or.inr ⟨by simp [handleMasterToggle, hex],
        ne_empty_of_hasAnyPrivilege hsw⟩
    · simp [handleMasterToggle, hex]

/-- Instance of the amended C3 theorem at a concrete switched-on state. -/
theorem savedPrivileges_update_rules_witness :
    (handleMasterToggle false
        (⟨true, false, false, none, some ⟨[.select], []⟩, none⟩ : ReconcilerState)).1.savedPrivileges =
        (⟨true, false, false, none, some ⟨[.select], []⟩, none⟩ : ReconcilerState).savedPrivileges
    ∨ ((handleMasterToggle false
        (⟨true, false, false, none, some ⟨[.select], []⟩, none⟩ : ReconcilerState)).1.savedPrivileges =
          some (effectivePrivileges ⟨true, false, false, none, some ⟨[.select], []⟩, none⟩)
        ∧ effectivePrivileges ⟨true, false, false, none, some ⟨[.select], []⟩, none⟩ ≠
            emptyPrivileges) :=
  (savedPrivileges_update_rules ⟨true, false, false, none, some ⟨[.select], []⟩, none⟩
    .anon []).2.2.2 (by decide)

/-- Every role always yields at least one statement set with its grants
addressed to that role: if some fixed privilege type is missing from the
desired list the revoke branch fires, otherwise the desired list holds every
type and the grant branch fires. -/
theorem exists_roleStatement (relationId : Nat) (role : ApiAccessRole)
    (rolePrivileges : List ApiPrivilegeType) :
    ∃ st ∈ roleStatements relationId role rolePrivileges,
      st.grants ≠ [] ∧ ∀ g ∈ st.grants, g.grantee = role := by
  by_cases hrev : (privilegesToRevoke rolePrivileges).length > 0
  · refine ⟨⟨.revoke, (privilegesToRevoke rolePrivileges).map fun t => ⟨role, t, relationId⟩⟩,
      ?_, ?_, ?_⟩
    · simp [roleStatements, hrev]
    · simp only [ne_eq, List.map_eq_nil_iff]
      intro hnil
      rw [hnil] at hrev
      exact absurd hrev (by decide)
    · intro g hg
      simp only [List.mem_map] at hg
      obtain ⟨t, _, rfl⟩ := hg
      rfl
  · have hnil : privilegesToRevoke rolePrivileges = [] := by
      cases h : privilegesToRevoke rolePrivileges with
      | nil => rfl
      | cons a l => rw [h] at hrev; exact absurd (by simp) hrev
    have hsel : ApiPrivilegeType.select ∈ rolePrivileges := by
      have := List.filter_eq_nil_iff.mp hnil ApiPrivilegeType.select (by decide)
      simpa using this
    have hlen : rolePrivileges.length > 0 := List.length_pos.mpr (by
      intro h
      rw [h] at hsel
      exact absurd hsel (by simp))
    refine ⟨⟨.grant, rolePrivileges.map fun t => ⟨role, t, relationId⟩⟩, ?_, ?_, ?_⟩
    · simp [roleStatements, hnil, hlen]
    · simp only [ne_eq, List.map_eq_nil_iff]
      intro h
      rw [h] at hlen
      exact absurd hlen (by decide)
    · intro g hg
      simp only [List.mem_map] at hg
      obtain ⟨t, _, rfl⟩ := hg
      rfl

/--
Claim C4 as stated is false: the mutation never consults the current
server-side privilege list, so a role whose desired list (here anon with
select only) equals its current list still contributes a revoke statement set
for the three other types and a grant statement set for select.
-/
theorem updateTableApiAccess_unchanged_role_cex :
    updateTableApiAccessPrivileges 7 ⟨[.select], [.select]⟩ =
      [⟨.revoke, [⟨.anon, .insert, 7⟩, ⟨.anon, .update, 7⟩, ⟨.anon, .delete, 7⟩]⟩,
       ⟨.grant, [⟨.anon, .select, 7⟩]⟩,
       ⟨.revoke, [⟨.authenticated, .insert, 7⟩, ⟨.authenticated, .update, 7⟩,
          ⟨.authenticated, .delete, 7⟩]⟩,
       ⟨.grant, [⟨.authenticated, .select, 7⟩]⟩]
    ∧ roleStatements 7 .anon [.select] ≠ [] := by decide

/--
Claim C4 amended: statement sets are assembled from the desired privileges
alone, with no reference to the current server-side state; every role always
contributes at least one non-empty statement set addressed to it (the revoke
of the missing types when some type is undesired, the grant of the desired
types otherwise).
-/
theorem updateTableApiAccess_every_role_contributes (relationId : Nat)
    (privileges : ApiPrivilegesPerRole) (role : ApiAccessRole) :
    ∃ st ∈ updateTableApiAccessPrivileges relationId privileges,
      st.grants ≠ [] ∧ ∀ g ∈ st.grants, g.grantee = role := by
  have hsplit : updateTableApiAccessPrivileges relationId privileges =
      roleStatements relationId .anon privileges.anon ++
        roleStatements relationId .authenticated privileges.authenticated := by
    simp [updateTableApiAccessPrivileges, API_ACCESS_ROLES, getRole]
  obtain ⟨st, hmem, hst⟩ := exists_roleStatement relationId role (getRole privileges role)
  refine ⟨st, ?_, hst⟩
  rw [hsplit]
  cases role with
  | anon => exact List.mem_append_left _ hmem
  | authenticated => exact List.mem_append_right _ hmem

/-- Projecting the privilege type back out of freshly built grant objects
recovers the original privilege type list. -/
theorem map_privilegeType_mk (role : ApiAccessRole) (relationId : Nat)
    (l : List ApiPrivilegeType) :
    (l.map fun t => (⟨role, t, relationId⟩ : PrivilegeGrant)).map
      PrivilegeGrant.privilegeType = l := by
  induction l with
  | nil => rfl
  | cons a l ih => simp_all

/--
Claim C5: for every role, the privilege types put into revoke grants are
exactly the fixed privilege types not in the desired list, and the types put
into grant grants are exactly the desired list; the overall statement list is
the concatenation of the per-role statement sets.
-/
theorem updateTableApiAccess_revoke_complement_grant_desired
    (relationId : Nat) (privileges : ApiPrivilegesPerRole) (role : ApiAccessRole)
    (p : ApiPrivilegeType) :
    updateTableApiAccessPrivileges relationId privileges =
        roleStatements relationId .anon privileges.anon ++
          roleStatements relationId .authenticated privileges.authenticated
    ∧ (p ∈ privilegesToRevoke (getRole privileges role) ↔
        p ∈ API_PRIVILEGE_TYPES ∧ p ∉ getRole privileges role)
    ∧ ∀ st ∈ roleStatements relationId role (getRole privileges role),
        st.grants.map PrivilegeGrant.privilegeType =
          if st.kind = StmtKind.revoke then privilegesToRevoke (getRole privileges role)
          else getRole privileges role := by
  refine ⟨?_, ?_, ?_⟩
  · simp [updateTableApiAccessPrivileges, API_ACCESS_ROLES, getRole]
  · simp [privilegesToRevoke, List.mem_filter]
  · intro st hst
    simp only [roleStatements] at hst
    rw [List.mem_append] at hst
    rcases hst with hst | hst <;> split at hst <;>
      simp only [List.mem_singleton, List.not_mem_nil] at hst <;> subst hst <;>
      first
      | (rw [if_pos rfl]; exact map_privilegeType_mk role relationId _)
      | (rw [if_neg (by simp)]; exact map_privilegeType_mk role relationId _)

/-- Instance of the C5 theorem: the grant statement for anon at a concrete
input carries exactly the desired privilege type list. -/
theorem updateTableApiAccess_revoke_grant_witness :
    (SqlStatement.mk .grant [⟨.anon, .select, 7⟩]).grants.map PrivilegeGrant.privilegeType =
      (if (SqlStatement.mk .grant [⟨.anon, .select, 7⟩]).kind = StmtKind.revoke then
        privilegesToRevoke (getRole ⟨[.select], []⟩ .anon)
      else getRole ⟨[.select], []⟩ .anon) :=
  (updateTableApiAccess_revoke_complement_grant_desired 7 ⟨[.select], []⟩ .anon .select).2.2
    (SqlStatement.mk .grant [⟨.anon, .select, 7⟩]) (by decide)

/-- There are exactly four privilege types. -/
theorem card_apiPrivilegeType : Fintype.card ApiPrivilegeType = 4 := by decide

/-- A duplicate-free privilege list has at most four entries. -/
theorem nodup_length_le_four {l : List ApiPrivilegeType} (h : l.Nodup) : l.length ≤ 4 :=
  card_apiPrivilegeType ▸ h.length_le_card

/-- A duplicate-free privilege list with four entries contains every type. -/
theorem nodup_length_four_mem {l : List ApiPrivilegeType} (h : l.Nodup)
    (hlen : l.length = 4) : ∀ k, k ∈ l := by
  intro k
  have hcard : l.toFinset.card = Fintype.card ApiPrivilegeType := by
    rw [List.toFinset_card_of_nodup h, hlen, card_apiPrivilegeType]
  have huniv := (Finset.card_eq_iff_eq_univ _).mp hcard
  have : k ∈ l.toFinset := huniv ▸ Finset.mem_univ k
  exact List.mem_toFinset.mp this

/-- A duplicate-free privilege list containing every type has four entries. -/
theorem nodup_mem_all_length {l : List ApiPrivilegeType} (h : l.Nodup)
    (hall : ∀ k, k ∈ l) : l.length = 4 := by
  have huniv : l.toFinset = Finset.univ :=
    Finset.eq_univ_iff_forall.mpr fun k => List.mem_toFinset.mpr (hall k)
  have := List.toFinset_card_of_nodup h
  rw [huniv] at this
  rw [← this, ← card_apiPrivilegeType]
  rfl

/-- The total selected count is the sum of the two role list lengths. -/
theorem totalSelectedPrivileges_eq (e : ApiPrivilegesPerRole) :
    totalSelectedPrivileges e = e.anon.length + e.authenticated.length := by
  simp [totalSelectedPrivileges]

/-- Boolean-to-Prop unfolding of hasPartialPrivileges. -/
theorem hasPartialPrivileges_true_iff (e : ApiPrivilegesPerRole) :
    hasPartialPrivileges e = true ↔
      0 < totalSelectedPrivileges e ∧
        totalSelectedPrivileges e < totalAvailablePrivileges := by
  simp [hasPartialPrivileges]

/--
Claim C8: over duplicate-free privilege lists, hasPartialPrivileges is true
exactly when the total granted count lies strictly between zero and the
role-count times kind-count bound, and false exactly when the effective set
is fully empty or fully saturated.
-/
theorem hasPartialPrivileges_characterization (e : ApiPrivilegesPerRole)
    (h1 : e.anon.Nodup) (h2 : e.authenticated.Nodup) :
    (hasPartialPrivileges e = true ↔
      0 < totalSelectedPrivileges e ∧
        totalSelectedPrivileges e < totalAvailablePrivileges)
    ∧ (hasPartialPrivileges e = false ↔
        (e = emptyPrivileges ∨ ∀ k, k ∈ e.anon ∧ k ∈ e.authenticated)) := by
  refine ⟨hasPartialPrivileges_true_iff e, ?_⟩
  have hava : totalAvailablePrivileges = 8 := rfl
  have htot := totalSelectedPrivileges_eq e
  rw [Bool.eq_false_iff, ne_eq, hasPartialPrivileges_true_iff e, hava, htot]
  constructor
  · intro hnot
    by_cases hz : e.anon.length + e.authenticated.length = 0
    · left
      obtain ⟨ea, eb⟩ := e
      simp only at hz ⊢
      have ha : ea.length = 0 := by omega
      have hb : eb.length = 0 := by omega
      rw [List.length_eq_zero] at ha hb
      rw [ha, hb]
      rfl
    · right
      have hle1 : e.anon.length ≤ 4 := nodup_length_le_four h1
      have hle2 : e.authenticated.length ≤ 4 := nodup_length_le_four h2
      have h8 : 8 ≤ e.anon.length + e.authenticated.length := by omega
      have ha : e.anon.length = 4 := by omega
      have hb : e.authenticated.length = 4 := by omega
      exact fun k => ⟨nodup_length_four_mem h1 ha k, nodup_length_four_mem h2 hb k⟩
  · intro hcase
    rcases hcase with he | hall
    · rw [he]
      simp [emptyPrivileges]
    · have ha : e.anon.length = 4 := nodup_mem_all_length h1 fun k => (hall k).1
      have hb : e.authenticated.length = 4 := nodup_mem_all_length h2 fun k => (hall k).2
      omega

/-- Instance of the C8 theorem at a concrete half-granted set. -/
theorem hasPartialPrivileges_characterization_witness :
    hasPartialPrivileges ⟨[.select], []⟩ = true ↔
      0 < totalSelectedPrivileges ⟨[.select], []⟩ ∧
        totalSelectedPrivileges ⟨[.select], []⟩ < totalAvailablePrivileges :=
  (hasPartialPrivileges_characterization ⟨[.select], []⟩ (by decide) (by decide)).1

end ApiAccess

namespace TableApiAccessQuery

/-- Membership in the per-role output of the query mapping loop body. -/
theorem mem_rolePrivileges {l : List TablePrivilege} {role p : String} :
    p ∈ rolePrivileges l role ↔
      p ∈ API_PRIVILEGE_TYPES ∧ ∃ g ∈ l, g.grantee = role ∧ g.privilege_type = p := by
  simp only [rolePrivileges, List.mem_filter, List.mem_map, List.elem_eq_mem,
    decide_eq_true_eq, beq_iff_eq]
  constructor
  · rintro ⟨⟨g, ⟨hgl, hgr⟩, rfl⟩, hfix⟩
    exact ⟨hfix, g, hgl, hgr, rfl⟩
  · rintro ⟨hfix, g, hgl, hgr, rfl⟩
    exact ⟨⟨g, ⟨hgl, hgr⟩, rfl⟩, hfix⟩

/--
Claim C9: for every fetched payload, a privilege string appears in a role
entry of the query mapping output exactly when the located target relation
has a grant to that role with that privilege type and the type is one of the
four fixed strings; in particular every output entry is drawn from the fixed
set, and foreign grantees or unknown privilege kinds are silently dropped
rather than causing an error.
-/
theorem mapPrivilegesToApiAccess_filters (data : Option (List TablePrivilegesRow))
    (relationId : Option Nat) (schema tableName : Option String) (p : String) :
    (p ∈ (mapPrivilegesToApiAccess data relationId schema tableName).privileges.anon ↔
      p ∈ API_PRIVILEGE_TYPES ∧
        ∃ g ∈ targetPrivileges data relationId schema tableName,
          g.grantee = "anon" ∧ g.privilege_type = p)
    ∧ (p ∈ (mapPrivilegesToApiAccess data relationId schema tableName).privileges.authenticated ↔
      p ∈ API_PRIVILEGE_TYPES ∧
        ∃ g ∈ targetPrivileges data relationId schema tableName,
          g.grantee = "authenticated" ∧ g.privilege_type = p)
    ∧ ((p ∈ (mapPrivilegesToApiAccess data relationId schema tableName).privileges.anon ∨
        p ∈ (mapPrivilegesToApiAccess data relationId schema tableName).privileges.authenticated) →
        p ∈ API_PRIVILEGE_TYPES) := by
  refine ⟨mem_rolePrivileges, mem_rolePrivileges, ?_⟩
  intro hp
  rcases hp with hp | hp
  · exact (mem_rolePrivileges.mp hp).1
  · exact (mem_rolePrivileges.mp hp).1

/-- Instance of the C9 theorem: a remote TRUNCATE grant and a grant to a
foreign role are dropped while the SELECT grant to anon is kept. -/
theorem mapPrivilegesToApiAccess_filters_witness :
    ("SELECT" : String) ∈ API_PRIVILEGE_TYPES :=
  (mapPrivilegesToApiAccess_filters
    (some [⟨12, "public", "t",
      [⟨"anon", "SELECT"⟩, ⟨"anon", "TRUNCATE"⟩, ⟨"postgres", "INSERT"⟩,
       ⟨"authenticated", "DELETE"⟩]⟩])
    (some 12) none none "SELECT").2.2 (Or.inl (by decide))

end TableApiAccessQuery

namespace RealtimeExperiment

/--
Claim C10: the returned activeVariant is never the control variant; it is
null unless running on the platform, the context is a table and the flag
resolves to a non-control variant, in which case it is exactly that variant.
-/
theorem useRealtimeExperiment_activeVariant (isPlatform isTable : Bool)
    (flag : Option RealtimeButtonVariant) (v : RealtimeButtonVariant) :
    useRealtimeExperiment isPlatform isTable flag ≠ some RealtimeButtonVariant.control
    ∧ (useRealtimeExperiment isPlatform isTable flag = some v ↔
        isPlatform = true ∧ isTable = true ∧ flag = some v ∧
          v ≠ RealtimeButtonVariant.control) := by
  constructor
  · cases flag with
    | none => simp [useRealtimeExperiment]
    | some w =>
      by_cases hw : w = RealtimeButtonVariant.control
      · subst hw
        simp [useRealtimeExperiment]
      · simp only [useRealtimeExperiment]
        split
        · simpa using fun h => hw h
        · simp
  · cases flag with
    | none => simp [useRealtimeExperiment]
    | some w =>
      simp only [useRealtimeExperiment]
      constructor
      · intro h
        split at h
        · rename_i hcond
          simp only [Bool.and_eq_true, bne_iff_ne, ne_eq] at hcond
          obtain ⟨⟨hpf, ht⟩, hne⟩ := hcond
          obtain rfl : w = v := by injection h
          exact ⟨hpf, ht, rfl, hne⟩
        · exact absurd h (by simp)
      · rintro ⟨hp, ht, hw, hv⟩
        obtain rfl : w = v := by injection hw
        rw [if_pos]
        simp [hp, ht, hv]

/-- Instance of the C10 theorem: the triggers variant on the platform for a
table is returned as the active variant. -/
theorem useRealtimeExperiment_activeVariant_witness :
    useRealtimeExperiment true true (some RealtimeButtonVariant.triggers) =
      some RealtimeButtonVariant.triggers :=
  (useRealtimeExperiment_activeVariant true true (some RealtimeButtonVariant.triggers)
    RealtimeButtonVariant.triggers).2.mpr ⟨rfl, rfl, rfl, by decide⟩

end RealtimeExperiment
